import Mathlib

/-!
Verification development for the nbaio repository (src/nbaio/util.py,
src/nbaio/cli.py): a shallow embedding of the bounded-concurrency batch
runners, the download / extraction / shell single-task executors, and the
file-size checker, together with theorems settling the specified
properties.

Modelling conventions:
- The filesystem state relevant to one download is the optional size of the
  destination file (`Option Nat`).
- Python exceptions are `Except String`; a caught exception's `str(e)` is
  the carried string.
- The environment (HTTP transfer behaviour, process launches, `mkdir` and
  `unlink` outcomes) is passed in as explicit data, translated from the
  control flow of the source.
-/

namespace Nbaio

/-- Result triple of `_download_core` (util.py:50): (success, error_message,
total_size). -/
structure DlCoreResult where
  success : Bool
  error : Option String
  totalSize : Option Nat
deriving DecidableEq

/-- Environment for one `_download_core` run: how the HTTP transfer goes.
`httpError`: the client / stream / `raise_for_status` raises before the
destination file is opened (util.py:66-70).  `writeFail`: the destination
file was opened and the given chunks written when an error is raised
(util.py:72-76).  `complete`: every chunk is written and the stream ends
normally (util.py:78). -/
inductive TransferOutcome where
  | httpError (msg : String)
  | writeFail (chunks : List Nat) (msg : String)
  | complete (chunks : List Nat)
deriving DecidableEq

/-- Total number of bytes in a chunk sequence. -/
def sumChunks (cs : List Nat) : Nat := cs.foldl (fun a c => a + c) 0

/-- The try/except body of `_download_core` (util.py:65-83).  `fs0` is the
state of the destination file before the call (size, or `none` if absent);
`contentLength` is the `content-length` header value.  Returns the
(success, error, total_size) result and the final state of the destination
file.  The except branch (util.py:80-83) unlinks the destination file if it
exists and returns `(False, str(e), None)`. -/
def download_core_try (fs0 : Option Nat) (contentLength : Nat)
    (t : TransferOutcome) : DlCoreResult × Option Nat :=
  match t with
  | .httpError e => (⟨false, some e, none⟩, if fs0.isSome then none else fs0)
  | .writeFail cs e =>
      let fsMid : Option Nat := some (sumChunks cs)
      (⟨false, some e, none⟩, if fsMid.isSome then none else fsMid)
  | .complete cs => (⟨true, none, some contentLength⟩, some (sumChunks cs))

/-- `_download_core` (util.py:44-83).  `dest_path.parent.mkdir(...)` at
util.py:63 runs BEFORE the try block, so if it raises the exception
propagates to the caller; this is the `.error` case. -/
def download_core (mkdirRes : Except String Unit) (fs0 : Option Nat)
    (contentLength : Nat) (t : TransferOutcome) :
    Except String (DlCoreResult × Option Nat) :=
  match mkdirRes with
  | .error e => .error e
  | .ok _ => .ok (download_core_try fs0 contentLength t)

/-- Python truthiness of an `Optional[int]`: `None` and `0` are falsy. -/
def pyTruthy : Option Nat → Bool
  | none => false
  | some n => !(n == 0)

/-- `download_file` (util.py:86-147) with UI disabled.  The size validation
at util.py:136 is `if success and expected_size and dest_path.stat().st_size
!= expected_size: return False`; `expected_size` is tested for Python
truthiness, and `stat().st_size` is the final destination-file state
produced by the core.  An exception escaping `_download_core` (the mkdir at
util.py:63) escapes `download_file` as well: there is no try/except in
`download_file`. -/
def download_file (expectedSize : Option Nat) (mkdirRes : Except String Unit)
    (fs0 : Option Nat) (contentLength : Nat) (t : TransferOutcome) :
    Except String Bool :=
  match download_core mkdirRes fs0 contentLength t with
  | .error e => .error e
  | .ok (r, fsFinal) =>
      .ok (if r.success && pyTruthy expectedSize
              && !(fsFinal.getD 0 == expectedSize.getD 0)
           then false else r.success)

/-- A command is a `str` (shell-interpreted) or a `list[str]` (argument
vector), as in `Union[str, List[str]]` (util.py:344). -/
def PyCmd : Type := Sum String (List String)

/-- How `anyio.run_process` behaves for one command: the process launches
and exits with a return code and captured output bytes (decoded here as
strings), or the launch itself raises (missing executable, permission
error). -/
inductive LaunchOutcome where
  | launched (rc : Int) (out err : String)
  | failedToLaunch (msg : String)

/-- `shell_cmd` (util.py:342-402), POSIX path (the Windows branch at
util.py:363-368 is not taken).  With `capture_output` the decoded stdout and
stderr are returned, using `""` when the captured bytes are falsy
(util.py:380-381); without it the child inherits the streams and the result
carries empty strings (util.py:397).  The except branch (util.py:399-402)
returns `(-1, "", str(e))`. -/
def shell_cmd (captureOutput : Bool) (r : LaunchOutcome) :
    Int × String × String :=
  match r with
  | .launched rc out err =>
      if captureOutput then
        (rc, if out == "" then "" else out, if err == "" then "" else err)
      else (rc, "", "")
  | .failedToLaunch e => (-1, "", e)

/-- The loop of concurrent tasks spawned by the batch runners
(util.py:181-192 and util.py:429-441).  `order` is the order in which the
tasks' executor calls complete; each completing task writes its result into
the pre-sized result list at its own index (`results[index] = ...`).  The
task wrappers `download_with_limiter` and `run_with_limiter` contain no
try/except, so an executor call that raises propagates out of the task
group, aborting the batch: that is the `.error` short-circuit. -/
def runScheduleExcFrom (inputs : List α) (ex : α → Except ε β) :
    List (Fin inputs.length) → List β → Except ε (List β)
  | [], acc => .ok acc
  | i :: rest, acc =>
      match ex (inputs.get i) with
      | .error e => .error e
      | .ok v => runScheduleExcFrom inputs ex rest (acc.set i.val v)

/-- A batch run: the result list is pre-sized with a default value
(`[False] * len(downloads)` at util.py:179, `[(-1, "", "")] * len(commands)`
at util.py:427) and the tasks complete in the given order. -/
def runScheduleExc (inputs : List α) (ex : α → Except ε β) (dflt : β)
    (order : List (Fin inputs.length)) : Except ε (List β) :=
  runScheduleExcFrom inputs ex order (List.replicate inputs.length dflt)

/-- `download_files` (util.py:149-194): one task per (url, dest) pair, the
pre-sized result list defaulting to `False`, results written by index.  The
executor argument is the per-task behaviour of `download_file` (which is
called without `expected_size`). -/
def download_files (dls : List (String × String))
    (ex : String × String → Except String Bool)
    (order : List (Fin dls.length)) : Except String (List Bool) :=
  runScheduleExc dls ex false order

/-- `shell_cmds` (util.py:404-443): one task per command, the pre-sized
result list defaulting to `(-1, "", "")`, results written by index. -/
def shell_cmds (cmds : List PyCmd)
    (ex : PyCmd → Except String (Int × String × String))
    (order : List (Fin cmds.length)) :
    Except String (List (Int × String × String)) :=
  runScheduleExc cmds ex (-1, "", "") order

/-- Modelled from the dependency's documented contract:
`anyio.CapacityLimiter(total_tokens)` (constructed at util.py:177 and
util.py:426, before any task is started) validates its argument eagerly and
raises `ValueError("total_tokens must be >= 1")` for `total_tokens < 1`. -/
def capacityLimiterNew (totalTokens : Int) : Except String Unit :=
  if totalTokens < 1 then .error "total_tokens must be >= 1" else .ok ()

/-- `download_files` including the limiter construction at util.py:177,
which precedes the creation of the task group (util.py:190): an invalid
bound raises before any task is spawned. -/
def download_files_checked (maxConcurrent : Int)
    (dls : List (String × String)) (ex : String × String → Except String Bool)
    (order : List (Fin dls.length)) : Except String (List Bool) :=
  match capacityLimiterNew maxConcurrent with
  | .error e => .error e
  | .ok _ => download_files dls ex order

/-- `shell_cmds` including the limiter construction at util.py:426. -/
def shell_cmds_checked (maxConcurrent : Int) (cmds : List PyCmd)
    (ex : PyCmd → Except String (Int × String × String))
    (order : List (Fin cmds.length)) :
    Except String (List (Int × String × String)) :=
  match capacityLimiterNew maxConcurrent with
  | .error e => .error e
  | .ok _ => shell_cmds cmds ex order

/-- An observable event of one batch of `T` tasks around the shared limiter:
task `i` acquires the limiter (`async with limiter:` entry, util.py:182 /
util.py:430) or releases it (block exit). -/
inductive LimEvent (T : Nat) where
  | acq (i : Fin T)
  | rel (i : Fin T)
deriving DecidableEq

/-- Limiter-relevant state of a batch of `T` tasks: which tasks currently
hold the limiter, and which have ever acquired it (each task's body
acquires at most once). -/
structure LimState (T : Nat) where
  active : Finset (Fin T)
  started : Finset (Fin T)
deriving DecidableEq

/-- One step of the limiter protocol with capacity `N`
(`anyio.CapacityLimiter` semantics): an acquire is only possible for a task
that has not yet acquired and while fewer than `N` tasks hold the limiter;
a release only for a task holding it.  `none` marks an impossible event. -/
def limStep (N : Nat) (s : LimState T) : LimEvent T → Option (LimState T)
  | .acq i =>
      if i ∉ s.started ∧ s.active.card < N then
        some ⟨insert i s.active, insert i s.started⟩
      else none
  | .rel i => if i ∈ s.active then some ⟨s.active.erase i, s.started⟩ else none

/-- Run a sequence of limiter events from a given state. -/
def runTraceFrom (N : Nat) (s : LimState T) :
    List (LimEvent T) → Option (LimState T)
  | [] => some s
  | e :: rest =>
      match limStep N s e with
      | none => none
      | some s1 => runTraceFrom N s1 rest

/-- The initial state of a fresh batch: no task active, none started. -/
def limInit (T : Nat) : LimState T := ⟨∅, ∅⟩

/-- Run a schedule of limiter events for a fresh batch of `T` tasks under
capacity `N`.  Any interleaving the event loop can produce is such a
trace (and every prefix of a trace is again a trace). -/
def runTrace (N : Nat) (tr : List (LimEvent T)) : Option (LimState T) :=
  runTraceFrom N (limInit T) tr

/-- A path stored in an archive entry: an absolute-path flag and the raw
path components. -/
structure EntryPath where
  absolute : Bool
  comps : List String
deriving DecidableEq

/-- Modelled from the dependency: CPython's `zipfile` extraction sanitizes
each member name before writing — it drops the drive/leading separators and
every component that is `""`, `"."` or `".."` — so the member is always
written under the target directory, silently, with no error raised. -/
def zipSanitize (e : EntryPath) : List String :=
  e.comps.filter (fun c => !(c == "" || c == "." || c == ".."))

/-- Textual resolution of a relative path, one component at a time:
`""` and `"."` are skipped, `".."` pops the last resolved component, and
popping past the root means the path escapes the base directory (`none`). -/
def stepComp (acc : List String) (c : String) : Option (List String) :=
  if c == "" || c == "." then some acc
  else if c == ".." then
    match acc with
    | [] => none
    | _ :: _ => some acc.dropLast
  else some (acc ++ [c])

/-- Resolve a relative component list against the destination root;
`none` when the path escapes above the destination. -/
def resolveRel (cs : List String) : Option (List String) :=
  cs.foldlM stepComp []

/-- Modelled from the dependency: `zipfile.ZipFile.extractall(dest)` as
called at util.py:218-220 writes every (sanitized) member under `dest` and
raises nothing for traversal entries. -/
def zipExtractAll (dest : List String) (entries : List EntryPath) :
    List (List String) :=
  entries.map (fun e => dest ++ zipSanitize e)

/-- Modelled from the dependency: `tarfile.TarFile.extractall(dest,
filter='data')` as called at util.py:290-291 checks each member in order.
The data filter first strips leading slashes from the member name, so a
POSIX-absolute member is silently made relative (the entry's `absolute`
flag is discarded; the residual absolute-path error concerns only Windows
drive paths and is unreachable here); a member whose stripped name resolves
outside `dest` raises `OutsideDestinationError`, stopping extraction with
the members already written left in place; a safe member is written at its
resolved path under `dest`.  Returns the written paths and the raised
error, if any.  Symlink-based escapes are outside this model. -/
def tarDataExtract (dest : List String) :
    List EntryPath → List (List String) × Option String
  | [] => ([], none)
  | e :: rest =>
      match resolveRel e.comps with
      | none => ([], some "OutsideDestinationError")
      | some rel =>
          let r := tarDataExtract dest rest
          ((dest ++ rel) :: r.1, r.2)

/-- `_extract_zip_core` (util.py:199-230): `dest_dir.mkdir`, extract all
entries, then — still inside the same try — if `remove_after` and the
archive still exists, unlink it; any exception (including one raised by the
unlink) is caught and returned as `(False, str(e))`.  The zip extraction
itself never raises for traversal entries.  Returns the (success, error)
pair and the list of paths written. -/
def extract_zip_core (dest : List String) (entries : List EntryPath)
    (removeAfter : Bool) (archivePresent : Bool)
    (unlinkRes : Except String Unit) :
    (Bool × Option String) × List (List String) :=
  let written := zipExtractAll dest entries
  if removeAfter && archivePresent then
    match unlinkRes with
    | .ok _ => ((true, none), written)
    | .error e => ((false, some e), written)
  else ((true, none), written)

/-- `_extract_tar_core` (util.py:268-301) with the default `filter='data'`:
extract all entries (the data filter raising on unsafe members), then —
still inside the same try — if `remove_after` and the archive exists,
unlink it; any exception, from extraction or from the unlink, is caught and
returned as `(False, str(e))`. -/
def extract_tar_core (dest : List String) (entries : List EntryPath)
    (removeAfter : Bool) (archivePresent : Bool)
    (unlinkRes : Except String Unit) :
    (Bool × Option String) × List (List String) :=
  match tarDataExtract dest entries with
  | (written, some e) => ((false, some e), written)
  | (written, none) =>
      if removeAfter && archivePresent then
        match unlinkRes with
        | .ok _ => ((true, none), written)
        | .error e => ((false, some e), written)
      else ((true, none), written)

/-- A written path lies inside the destination directory tree. -/
def underDest (dest p : List String) : Prop := p.take dest.length = dest

/-- `check_file_size` (util.py:490-508).  If the file does not exist it
returns `False` (util.py:502-503); otherwise it computes
`abs(actual_size - expected_size) / expected_size`, which raises
`ZeroDivisionError` when `expected_size == 0`, and compares the ratio with
the tolerance.  Python's float arithmetic is modelled with exact
rationals. -/
def check_file_size (fileExists : Bool) (actualSize : Nat)
    (expectedSize : Int) (tolerance : ℚ) : Except String Bool :=
  if !fileExists then .ok false
  else if expectedSize = 0 then .error "ZeroDivisionError: division by zero"
  else .ok (decide (|(actualSize : ℚ) - (expectedSize : ℚ)| / (expectedSize : ℚ)
      ≤ tolerance))

/-! ## Helper lemmas about the batch runner -/

/-- Writing result slots preserves the length of the result list. -/
lemma foldl_set_length (inputs : List α) (g : α → β) :
    ∀ (order : List (Fin inputs.length)) (acc : List β),
      (order.foldl (fun a i => a.set i.val (g (inputs.get i))) acc).length
        = acc.length
  | [], _ => rfl
  | i :: rest, acc => by
      rw [List.foldl_cons, foldl_set_length inputs g rest]
      exact List.length_set acc i.val _

/-- The slot at index `j` after a sequence of index-addressed writes: the
written value if task `j` completed, the original content otherwise. -/
lemma foldl_set_getElem? (inputs : List α) (g : α → β) :
    ∀ (order : List (Fin inputs.length)) (acc : List β),
      acc.length = inputs.length → ∀ j : Fin inputs.length,
      (order.foldl (fun a i => a.set i.val (g (inputs.get i))) acc)[j.val]?
        = if j ∈ order then some (g (inputs.get j)) else acc[j.val]?
  | [], acc, _, j => by simp
  | i :: rest, acc, hacc, j => by
      rw [List.foldl_cons,
        foldl_set_getElem? inputs g rest _ (by rw [List.length_set]; exact hacc) j]
      by_cases hjr : j ∈ rest
      · simp [hjr]
      · by_cases hji : j = i
        · subst hji
          simp only [hjr, if_false, List.mem_cons, true_or, if_true]
          exact List.getElem?_set_self (by rw [hacc]; exact j.isLt)
        · have hvi : i.val ≠ j.val := fun h => hji (Fin.ext h.symm)
          rw [List.getElem?_set_ne hvi]
          simp [hjr, hji]

/-- When every task completes, the index-addressed writes turn the pre-sized
default list into the input-aligned list of per-task results. -/
lemma runSchedule_eq_map (inputs : List α) (g : α → β) (dflt : β)
    (order : List (Fin inputs.length)) (h : ∀ j, j ∈ order) :
    order.foldl (fun a i => a.set i.val (g (inputs.get i)))
        (List.replicate inputs.length dflt) = inputs.map g := by
  apply List.ext_getElem?
  intro n
  by_cases hn : n < inputs.length
  · have hj := foldl_set_getElem? inputs g order
      (List.replicate inputs.length dflt) (List.length_replicate _ _) ⟨n, hn⟩
    rw [hj, if_pos (h ⟨n, hn⟩), List.getElem?_map,
      List.getElem?_eq_getElem hn]
    simp [List.get_eq_getElem]
  · rw [List.getElem?_eq_none (by rw [foldl_set_length, List.length_replicate]; omega),
      List.getElem?_eq_none (by rw [List.length_map]; omega)]

/-- When every executor call returns normally, the batch run is the pure
sequence of index-addressed writes. -/
lemma runScheduleExcFrom_ok (inputs : List α) (ex : α → Except ε β)
    (g : α → β) (hg : ∀ a, ex a = .ok (g a)) :
    ∀ (order : List (Fin inputs.length)) (acc : List β),
      runScheduleExcFrom inputs ex order acc
        = .ok (order.foldl (fun a i => a.set i.val (g (inputs.get i))) acc)
  | [], _ => rfl
  | i :: rest, acc => by
      rw [runScheduleExcFrom, hg, List.foldl_cons]
      exact runScheduleExcFrom_ok inputs ex g hg rest _

/-! ## C1 -/

/-- Claim C1: for every input list, the batch runners `download_files` and
`shell_cmds` return a result list whose length equals the input list's
length, and the result at index `i` is the result of executing input `i`,
for every completion order (a permutation of the task indices).  The
executors are assumed to return normally (they catch their errors
internally and return failure values; see C2 for the raising case). -/
theorem batch_results_index_aligned
    (dls : List (String × String)) (exD : String × String → Except String Bool)
    (g : String × String → Bool) (hg : ∀ t, exD t = .ok (g t))
    (ord1 : List (Fin dls.length)) (h1 : ord1.Perm (List.finRange dls.length))
    (cmds : List PyCmd) (exS : PyCmd → Except String (Int × String × String))
    (gs : PyCmd → Int × String × String) (hgs : ∀ c, exS c = .ok (gs c))
    (ord2 : List (Fin cmds.length))
    (h2 : ord2.Perm (List.finRange cmds.length)) :
    download_files dls exD ord1 = .ok (dls.map g) ∧
    (dls.map g).length = dls.length ∧
    shell_cmds cmds exS ord2 = .ok (cmds.map gs) ∧
    (cmds.map gs).length = cmds.length := by
  refine ⟨?_, List.length_map _ _, ?_, List.length_map _ _⟩
  · unfold download_files runScheduleExc
    rw [runScheduleExcFrom_ok dls exD g hg ord1,
      runSchedule_eq_map dls g false ord1
        (fun j => h1.mem_iff.mpr (List.mem_finRange j))]
  · unfold shell_cmds runScheduleExc
    rw [runScheduleExcFrom_ok cmds exS gs hgs ord2,
      runSchedule_eq_map cmds gs (-1, "", "") ord2
        (fun j => h2.mem_iff.mpr (List.mem_finRange j))]

/-- Witness for C1 at a concrete one-task batch of each kind. -/
theorem batch_results_index_aligned_witness :
    ([0] : List (Fin 1)).Perm (List.finRange 1) ∧
    download_files [("u", "f.bin")] (fun _ => .ok true) [⟨0, by decide⟩] = .ok [true] ∧
    shell_cmds [(Sum.inl "echo hi" : PyCmd)] (fun _ => .ok (0, "hi", "")) [⟨0, by decide⟩]
      = .ok [(0, "hi", "")] := by
  have h := batch_results_index_aligned [("u", "f.bin")] (fun _ => .ok true)
    (fun _ => true) (fun _ => rfl) [⟨0, by decide⟩] (by decide)
    [(Sum.inl "echo hi" : PyCmd)] (fun _ => .ok (0, "hi", ""))
    (fun _ => (0, "hi", "")) (fun _ => rfl) [⟨0, by decide⟩] (by decide)
  exact ⟨by decide, h.1, h.2.2.1⟩

/-! ## C2 -/

/-- Claim C2 counterexample: with the real `download_file` as executor and a
`mkdir` that raises (util.py:63 runs outside `_download_core`'s try block),
the exception propagates out of `download_files` — no result list is
produced and sibling results are lost, where the claim demands a `Failure`
recorded at the task's index and a normal return. -/
theorem batch_exception_escapes_counterexample :
    download_files [("u", "p")]
      (fun _ => download_file none (.error "PermissionError: mkdir") none 0
        (.complete []))
      [⟨0, by decide⟩] = .error "PermissionError: mkdir" := rfl

/-- Claim C2 (amended): the task wrappers `download_with_limiter` and
`run_with_limiter` contain no try/except, so an exception raised by an
executor call is NOT caught at the task boundary: it propagates out of
`download_files` / `shell_cmds` (first two conjuncts, for a batch whose
first-completing task's executor raises).  Only errors the executors catch
internally become failure values — e.g. `download_file` turns a failed
transfer into `False` (last conjunct) — and those are recorded per index
(see C1). -/
theorem batch_exception_escapes
    (dls : List (String × String)) (exD : String × String → Except String Bool)
    (i : Fin dls.length) (rest : List (Fin dls.length)) (e : String)
    (hB : exD (dls.get i) = .error e)
    (cmds : List PyCmd) (exS : PyCmd → Except String (Int × String × String))
    (j : Fin cmds.length) (rest2 : List (Fin cmds.length)) (e2 : String)
    (hS : exS (cmds.get j) = .error e2)
    (fs0 : Option Nat) (cl : Nat) (cs : List Nat) (msg : String) :
    download_files dls exD (i :: rest) = .error e ∧
    shell_cmds cmds exS (j :: rest2) = .error e2 ∧
    download_file none (.ok ()) fs0 cl (.writeFail cs msg) = .ok false := by
  refine ⟨?_, ?_, rfl⟩
  · unfold download_files runScheduleExc
    rw [runScheduleExcFrom, hB]
  · unfold shell_cmds runScheduleExc
    rw [runScheduleExcFrom, hS]

/-- Witness for the amended C2 at concrete raising executors. -/
theorem batch_exception_escapes_witness :
    download_files [("u", "p")] (fun _ => .error "boom") [⟨0, by decide⟩] = .error "boom" ∧
    shell_cmds [(Sum.inl "true" : PyCmd)] (fun _ => .error "boom2") [⟨0, by decide⟩]
      = .error "boom2" := by
  have h := batch_exception_escapes [("u", "p")] (fun _ => .error "boom")
    ⟨0, by decide⟩ [] "boom" rfl [(Sum.inl "true" : PyCmd)] (fun _ => .error "boom2")
    ⟨0, by decide⟩ [] "boom2" rfl none 0 [] "m"
  exact ⟨h.1, h.2.1⟩

/-! ## C3 -/

/-- One limiter step never pushes the number of active tasks above the
capacity `N`. -/
lemma limStep_card_le {T N : Nat} {s s' : LimState T} {e : LimEvent T}
    (h0 : s.active.card ≤ N) (h : limStep N s e = some s') :
    s'.active.card ≤ N := by
  cases e with
  | acq i =>
      by_cases hc : i ∉ s.started ∧ s.active.card < N
      · have h' : some (⟨insert i s.active, insert i s.started⟩ : LimState T)
            = some s' := by
          simpa only [limStep, if_pos hc] using h
        injection h' with h'
        subst h'
        have hci := Finset.card_insert_le i s.active
        have hlt := hc.2
        show (insert i s.active).card ≤ N
        omega
      · simp only [limStep, if_neg hc] at h
        exact Option.noConfusion h
  | rel i =>
      by_cases hm : i ∈ s.active
      · have h' : some (⟨s.active.erase i, s.started⟩ : LimState T)
            = some s' := by
          simpa only [limStep, if_pos hm] using h
        injection h' with h'
        subst h'
        show (s.active.erase i).card ≤ N
        exact le_trans Finset.card_erase_le h0
      · simp only [limStep, if_neg hm] at h
        exact Option.noConfusion h

/-- The capacity bound is an invariant of every run of the limiter
protocol. -/
lemma runTraceFrom_card_le {T : Nat} (N : Nat) :
    ∀ (tr : List (LimEvent T)) (s0 s : LimState T),
      s0.active.card ≤ N → runTraceFrom N s0 tr = some s → s.active.card ≤ N
  | [], s0, s, h0, h => by
      rw [runTraceFrom] at h
      injection h with h
      subst h
      exact h0
  | e :: rest, s0, s, h0, h => by
      rw [runTraceFrom] at h
      cases hstep : limStep N s0 e with
      | none => rw [hstep] at h; cases h
      | some s1 =>
          rw [hstep] at h
          exact runTraceFrom_card_le N rest s1 s (limStep_card_le h0 hstep) h

/-- Claim C3: in every batch of `T` tasks run with concurrency bound
`N ≥ 1`, along every schedule of acquire/release events the limiter admits
(and hence at every prefix of the execution, a prefix of an admitted trace
being itself an admitted trace), the number of simultaneously active tasks
never exceeds `min N T`. -/
theorem limiter_active_bounded {T : Nat} (N : Nat) (hN : 1 ≤ N)
    (tr : List (LimEvent T)) :
    (runTrace N tr).elim True (fun s => s.active.card ≤ min N T) := by
  cases hr : runTrace N tr with
  | none => exact trivial
  | some s =>
      show s.active.card ≤ min N T
      refine le_min ?_ ?_
      · exact runTraceFrom_card_le N tr (limInit T) s (by simp [limInit]) hr
      · calc s.active.card ≤ Fintype.card (Fin T) := Finset.card_le_univ _
          _ = T := Fintype.card_fin T

/-- Witness for C3: a concrete admissible schedule of three tasks under
capacity 2 (the trace does run to a final state). -/
theorem limiter_active_bounded_witness :
    (1 : Nat) ≤ 2 ∧
    (runTrace 2 [LimEvent.acq (0 : Fin 3), LimEvent.acq 1, LimEvent.rel 0,
        LimEvent.acq 2]).isSome = true ∧
    (runTrace 2 [LimEvent.acq (0 : Fin 3), LimEvent.acq 1, LimEvent.rel 0,
        LimEvent.acq 2]).elim True (fun s => s.active.card ≤ min 2 3) :=
  ⟨by decide, by rfl,
    limiter_active_bounded 2 (by decide)
      [LimEvent.acq (0 : Fin 3), LimEvent.acq 1, LimEvent.rel 0,
        LimEvent.acq 2]⟩

/-! ## C5 -/

/-- Claim C5: a batch submitted with concurrency bound `N ≤ 0` fails fast —
the limiter constructor raises at batch construction, before any task is
started, and no result list is ever produced (execution cannot degrade to
serial or unbounded concurrency). -/
theorem invalid_concurrency_fails_fast (n : Int) (hn : n ≤ 0)
    (dls : List (String × String)) (exD : String × String → Except String Bool)
    (ord1 : List (Fin dls.length)) (cmds : List PyCmd)
    (exS : PyCmd → Except String (Int × String × String))
    (ord2 : List (Fin cmds.length)) :
    download_files_checked n dls exD ord1
      = .error "total_tokens must be >= 1" ∧
    shell_cmds_checked n cmds exS ord2
      = .error "total_tokens must be >= 1" := by
  have h : capacityLimiterNew n = .error "total_tokens must be >= 1" := by
    unfold capacityLimiterNew
    rw [if_pos (by omega)]
  constructor <;> simp [download_files_checked, shell_cmds_checked, h]

/-- Witness for C5 at bound 0. -/
theorem invalid_concurrency_fails_fast_witness :
    (0 : Int) ≤ 0 ∧
    download_files_checked 0 [("u", "p")] (fun _ => .ok true)
        [⟨0, by decide⟩]
      = .error "total_tokens must be >= 1" :=
  ⟨by decide,
    (invalid_concurrency_fails_fast 0 (by decide) [("u", "p")]
      (fun _ => .ok true) [⟨0, by decide⟩] []
      (fun _ => .ok (0, "", "")) []).1⟩

/-! ## C4 -/

/-- Every path the data-filtered TAR extraction writes lies under the
destination directory. -/
lemma tarDataExtract_under (dest : List String) :
    ∀ (entries : List EntryPath) (p : List String),
      p ∈ (tarDataExtract dest entries).1 → underDest dest p
  | [], p, h => absurd h (by simp [tarDataExtract])
  | e :: rest, p, h => by
      rw [tarDataExtract] at h
      cases hres : resolveRel e.comps with
      | none => rw [hres] at h; simp at h
      | some rel =>
          rw [hres] at h
          simp only [List.mem_cons] at h
          cases h with
          | inl hp =>
              subst hp
              exact List.take_left dest rel
          | inr hp => exact tarDataExtract_under dest rest p hp

/-- If some entry's slash-stripped name resolves outside the destination,
the data-filtered TAR extraction raises. -/
lemma tarDataExtract_err (dest : List String) :
    ∀ (entries : List EntryPath),
      (∃ e ∈ entries, resolveRel e.comps = none) →
      ∃ m, (tarDataExtract dest entries).2 = some m
  | [], h => absurd h (by simp)
  | e :: rest, h => by
      rw [tarDataExtract]
      cases hres : resolveRel e.comps with
      | none => exact ⟨"OutsideDestinationError", rfl⟩
      | some rel =>
          obtain ⟨x, hx, hprop⟩ := h
          rcases List.mem_cons.mp hx with hxe | hxr
          · subst hxe
            rw [hres] at hprop
            cases hprop
          · exact tarDataExtract_err dest rest ⟨x, hxr, hprop⟩

/-- The files a `_extract_tar_core` run writes are those of the data-filtered
extraction, whatever the remove-after parameters. -/
lemma extract_tar_core_written (dest : List String) (entries : List EntryPath)
    (ra ap : Bool) (u : Except String Unit) :
    (extract_tar_core dest entries ra ap u).2
      = (tarDataExtract dest entries).1 := by
  unfold extract_tar_core
  rcases hte : tarDataExtract dest entries with ⟨w, o⟩
  cases o <;> cases ra <;> cases ap <;> cases u <;> simp

/-- The files a `_extract_zip_core` run writes are the sanitized entries,
whatever the remove-after parameters. -/
lemma extract_zip_core_written (dest : List String) (entries : List EntryPath)
    (ra ap : Bool) (u : Except String Unit) :
    (extract_zip_core dest entries ra ap u).2 = zipExtractAll dest entries := by
  unfold extract_zip_core
  cases ra <;> cases ap <;> cases u <;> simp

/-- Claim C4 counterexample: the ZIP entry `../evil.txt` escapes the
destination (its resolution pops above the root), yet `_extract_zip_core`
reports success — `zipfile.extractall` silently sanitizes the member name
instead of rejecting the archive; and the TAR entry with an absolute name
`/etc/evil` is silently made relative by the data filter's slash-stripping
and `_extract_tar_core` reports success as well.  Both contradict the claim
that every supported format rejects traversal entries (via `..` or an
absolute path) with a `Failure`. -/
theorem extract_traversal_counterexample :
    resolveRel ["..", "evil.txt"] = none ∧
    (extract_zip_core ["tmp", "dest"] [⟨false, ["..", "evil.txt"]⟩] false true
        (.ok ())).1 = (true, none) ∧
    (extract_tar_core ["tmp", "dest"] [⟨true, ["etc", "evil"]⟩] false true
        (.ok ())).1 = (true, none) :=
  ⟨rfl, rfl, rfl⟩

/-- Claim C4 (amended): no file is ever written outside the destination
tree, for either format; but a `Failure` is reported only for TAR entries
whose slash-stripped name resolves outside `dest_dir` via `..` components
(under the default `filter='data'`).  An absolute TAR entry is silently
made relative by the data filter — extraction treats it exactly like the
relative entry with the same components (third conjunct) — and ZIP
traversal entries are silently sanitized into `dest_dir` by
`zipfile.extractall`: in both cases the extraction reports `Success`
rather than `Failure`. -/
theorem extract_traversal_amended (dest : List String)
    (entries : List EntryPath) (ra ap : Bool) (u : Except String Unit)
    (cs : List String) (es2 : List EntryPath) :
    (∀ p ∈ (extract_tar_core dest entries ra ap u).2, underDest dest p) ∧
    ((∃ e ∈ entries, resolveRel e.comps = none) →
      (extract_tar_core dest entries ra ap u).1.1 = false) ∧
    extract_tar_core dest (⟨true, cs⟩ :: es2) ra ap u
      = extract_tar_core dest (⟨false, cs⟩ :: es2) ra ap u ∧
    (∀ p ∈ (extract_zip_core dest entries ra ap u).2, underDest dest p) ∧
    (extract_zip_core dest entries false ap u).1 = (true, none) := by
  refine ⟨?_, ?_, rfl, ?_, rfl⟩
  · intro p hp
    rw [extract_tar_core_written] at hp
    exact tarDataExtract_under dest entries p hp
  · intro hbad
    obtain ⟨m, hm⟩ := tarDataExtract_err dest entries hbad
    unfold extract_tar_core
    rcases hte : tarDataExtract dest entries with ⟨w, o⟩
    rw [hte] at hm
    simp only at hm
    subst hm
    rfl
  · intro p hp
    rw [extract_zip_core_written] at hp
    simp only [zipExtractAll, List.mem_map] at hp
    obtain ⟨e, _, hpe⟩ := hp
    subst hpe
    exact List.take_left dest (zipSanitize e)

/-- Witness for the amended C4 at a concrete traversal entry. -/
theorem extract_traversal_amended_witness :
    (extract_tar_core ["d"] [⟨false, ["..", "x"]⟩] false true (.ok ())).1.1
        = false ∧
    (extract_zip_core ["d"] [⟨false, ["..", "x"]⟩] false true (.ok ())).1
        = (true, none) :=
  ⟨(extract_traversal_amended ["d"] [⟨false, ["..", "x"]⟩] false true
      (.ok ()) [] []).2.1 ⟨⟨false, ["..", "x"]⟩, by decide, by decide⟩,
   (extract_traversal_amended ["d"] [⟨false, ["..", "x"]⟩] false true
      (.ok ()) [] []).2.2.2.2⟩

/-! ## C6 -/

/-- Claim C6: whenever a download fails inside the transfer (network error or
non-2xx status before the file is opened, or a write error after a partial
write), `_download_core` unlinks the destination file if it exists, returns
`(False, str(e), None)`, and the destination holds no file afterwards; at
the `download_file` level the result is `False`.  No exception escapes
(these failures occur after the mkdir at util.py:63 succeeded). -/
theorem download_failure_cleans_up (fs0 : Option Nat) (cl : Nat) :
    (∀ e, download_core (.ok ()) fs0 cl (.httpError e)
        = .ok (⟨false, some e, none⟩, none)) ∧
    (∀ cs e, download_core (.ok ()) fs0 cl (.writeFail cs e)
        = .ok (⟨false, some e, none⟩, none)) ∧
    (∀ es e, download_file es (.ok ()) fs0 cl (.httpError e) = .ok false) ∧
    (∀ es cs e, download_file es (.ok ()) fs0 cl (.writeFail cs e)
        = .ok false) := by
  refine ⟨fun e => ?_, fun cs e => ?_, fun es e => ?_, fun es cs e => ?_⟩ <;>
    cases fs0 <;>
    simp [download_core, download_core_try, download_file]

/-! ## C7 -/

/-- Claim C7 counterexample: a download with declared expected size 0 whose
transfer completes with 4 bytes on disk reports success — the validation at
util.py:136 tests `expected_size` for Python truthiness, so an expected
size of 0 disables the check, where the claim demands `Failure` whenever
the sizes differ, including expected size 0. -/
theorem size_validation_counterexample :
    download_file (some 0) (.ok ()) none 4 (.complete [4]) = .ok true ∧
    sumChunks [4] ≠ 0 :=
  ⟨rfl, by decide⟩

/-- Claim C7 (amended): for a transfer that completes without transport
error, a provided NONZERO expected size is validated — the result is
success exactly when the final file size equals it; a provided expected
size of 0 is falsy, disabling validation, so the call behaves exactly as if
no expected size had been provided. -/
theorem size_validation_amended (n : Nat) (hn : n ≠ 0) (fs0 : Option Nat)
    (cl : Nat) (cs : List Nat) (t : TransferOutcome) :
    download_file (some n) (.ok ()) fs0 cl (.complete cs)
      = .ok (sumChunks cs == n) ∧
    download_file (some 0) (.ok ()) fs0 cl t
      = download_file none (.ok ()) fs0 cl t := by
  constructor
  · have hn' : (n == 0) = false := by simp [hn]
    cases hsc : (sumChunks cs == n) <;>
      simp_all [download_file, download_core, download_core_try, pyTruthy]
  · cases t <;>
      simp [download_file, download_core, download_core_try, pyTruthy]

/-- Witness for the amended C7: expecting 5 bytes but writing 4 fails. -/
theorem size_validation_amended_witness :
    (5 : Nat) ≠ 0 ∧
    download_file (some 5) (.ok ()) none 5 (.complete [2, 2])
      = .ok (sumChunks [2, 2] == 5) :=
  ⟨by decide,
    (size_validation_amended 5 (by decide) none 5 [2, 2] (.complete [])).1⟩

/-! ## C8 -/

/-- Claim C8 counterexample: extraction succeeds, `remove_after` is set, and
the unlink of the archive raises — the result is `(False, str(e))`, not
`Success`: the unlink runs inside the same try block as the extraction
(util.py:224-225 / util.py:295-296), so a deletion failure downgrades the
result, where the claim says the result stays `Success`. -/
theorem remove_after_failure_counterexample :
    (extract_zip_core ["d"] [⟨false, ["a"]⟩] true true
        (.error "PermissionError: unlink")).1
      = (false, some "PermissionError: unlink") := rfl

/-- Claim C8 (amended): on a successfully extracting archive with
`remove_after` set and the archive present, the source archive is unlinked
and the result is `Success`; if that unlink raises, the exception is caught
by the same handler as extraction errors and the result is `Failure`
carrying the deletion error's description — the deletion failure IS
reported, but as a downgrade of the result, not as a secondary
diagnostic. -/
theorem remove_after_failure_amended (dest : List String)
    (entries : List EntryPath) (e : String)
    (hok : (tarDataExtract dest entries).2 = none) :
    (extract_zip_core dest entries true true (.ok ())).1 = (true, none) ∧
    (extract_zip_core dest entries true true (.error e)).1
      = (false, some e) ∧
    (extract_tar_core dest entries true true (.ok ())).1 = (true, none) ∧
    (extract_tar_core dest entries true true (.error e)).1
      = (false, some e) := by
  refine ⟨rfl, rfl, ?_, ?_⟩ <;>
  · unfold extract_tar_core
    rcases hte : tarDataExtract dest entries with ⟨w, o⟩
    rw [hte] at hok
    simp only at hok
    subst hok
    rfl

/-- Witness for the amended C8 at a concrete archive. -/
theorem remove_after_failure_amended_witness :
    (tarDataExtract ["d"] [⟨false, ["a"]⟩]).2 = none ∧
    (extract_zip_core ["d"] [⟨false, ["a"]⟩] true true (.ok ())).1
        = (true, none) ∧
    (extract_tar_core ["d"] [⟨false, ["a"]⟩] true true
        (.error "boom")).1 = (false, some "boom") := by
  have h := remove_after_failure_amended ["d"] [⟨false, ["a"]⟩] "boom"
    (by decide)
  exact ⟨by decide, h.1, h.2.2.2⟩

/-! ## C9 -/

/-- Claim C9: a command whose process launches and exits carries its exit
code (zero or not) and captured stdout/stderr in the result — non-zero exit
codes are not failures; the failure encoding `(-1, "", str(e))` arises
exactly from the except branch, i.e. when the process fails to launch, and
carries the launch error's description. -/
theorem shell_exit_code_passthrough (rc : Int) (out err msg : String)
    (cap : Bool) :
    shell_cmd true (.launched rc out err) = (rc, out, err) ∧
    shell_cmd false (.launched rc out err) = (rc, "", "") ∧
    shell_cmd cap (.failedToLaunch msg) = (-1, "", msg) := by
  refine ⟨?_, rfl, ?_⟩
  · unfold shell_cmd
    cases hout : out == "" <;> cases herr : err == "" <;> simp_all
  · cases cap <;> rfl

/-! ## C10 -/

/-- Claim C10: `check_file_size` with expected size 0 on an existing file
raises `ZeroDivisionError` (the tolerance ratio divides by `expected_size`
unguarded at util.py:506) instead of returning a boolean; on a non-existent
file it returns `False` for every expected size, before any division. -/
theorem check_file_size_zero_division (a : Nat) (es : Int) (tol : ℚ) :
    check_file_size true a 0 tol
      = .error "ZeroDivisionError: division by zero" ∧
    check_file_size false a es tol = .ok false := by
  constructor <;> simp [check_file_size]

end Nbaio
